import Mathlib

/-!
Verification of the IPC append-resume algorithm (`FileWriter::try_from_file`
in `src/io/ipc/append/mod.rs`): a shallow embedding of the function as a pure
Lean function over explicit inputs (native byte order, dictionary loader,
seek behaviour, metadata, options), returning the result together with the
trace of I/O events (dictionary reads, seeks) performed on the stream.
-/

namespace Arrow2

/-- A footer block entry: `{offset: i64, meta_data_length: i32, body_length: i64}`.
The fields are signed integers, modelled as `Int`. -/
structure Block where
  offset : Int
  meta_data_length : Int
  body_length : Int
deriving DecidableEq, Repr

/-- The part of `IpcSchema` read by the algorithm: the ipc fields (opaque,
type parameter `IF`) and the endianness flag. -/
structure IpcSchema (IF : Type) where
  fields : List IF
  is_little_endian : Bool
deriving DecidableEq, Repr

/-- The part of `Schema` read by the algorithm: its field descriptors
(opaque, type parameter `F`). -/
structure Schema (F : Type) where
  fields : List F
deriving DecidableEq, Repr

/-- `FileMetadata` as consumed by `try_from_file`: schema, ipc schema,
record-batch blocks, and the optional dictionary block list. -/
structure FileMetadata (F IF : Type) where
  schema : Schema F
  ipc_schema : IpcSchema IF
  blocks : List Block
  dictionaries : Option (List Block)
deriving DecidableEq, Repr

/-- Errors of the algorithm, following `ArrowError`: `nyi` (not yet
implemented / unsupported), `oos` (out of spec / malformed file), and
`io` for underlying I/O failures. -/
inductive ArrowError where
  | nyi (msg : String)
  | oos (msg : String)
  | io (msg : String)
deriving DecidableEq, Repr

/-- Modelled from the spec: the tracker carried in the writer state holding
the decoded dictionaries and the replace policy flag; `cannot_replace`
set means dictionary ids already present must never be redefined. The
struct is declared outside the given source file; its shape (fields
`dictionaries` and `cannot_replace`) is fixed by the construction site in
`try_from_file`. -/
structure DictionaryTracker (D : Type) where
  dictionaries : D
  cannot_replace : Bool
deriving DecidableEq, Repr

/-- Modelled from the spec: the writer lifecycle state. The spec fixes the
resumed state to "ready to accept further messages" (`started`), never
"not yet started" (`notStarted`); `finished` is the state after the footer
is written. The enum is declared outside the given source file. -/
inductive State where
  | notStarted
  | started
  | finished
deriving DecidableEq, Repr

/-- The writer state assembled by `try_from_file`. The stream handle
(`writer`) is modelled by its cursor position in bytes. -/
structure FileWriter (F IF D W : Type) where
  writer : Nat
  options : W
  schema : Schema F
  ipc_fields : List IF
  block_offsets : Nat
  dictionary_blocks : List Block
  record_blocks : List Block
  state : State
  dictionary_tracker : DictionaryTracker D
deriving DecidableEq, Repr

/-- I/O events observable on the stream during resumption: a dictionary
read over a block list, or a seek to an absolute position. -/
inductive Event where
  | dictRead (blocks : List Block)
  | seek (pos : Nat)
deriving DecidableEq, Repr

/-- Whether an event is a dictionary read. -/
def Event.isDictRead : Event → Bool
  | .dictRead _ => true
  | .seek _ => false

/-- Whether an event is a seek. -/
def Event.isSeek : Event → Bool
  | .dictRead _ => false
  | .seek _ => true

/-- `u64::try_from` on a signed integer: succeeds exactly on non-negative
values (`TryInto` from `i64`/`i32` into `u64` fails on negatives). -/
def u64TryFrom (x : Int) : Option Nat :=
  if 0 ≤ x then some x.toNat else none

/-- The modulus of `u64` arithmetic. -/
def U64_MOD : Nat := 2 ^ 64

/-- Whether a result is the malformed-file (`oos`, out-of-spec) error. -/
def isOos {α : Type} : Except ArrowError α → Bool
  | .error (.oos _) => true
  | _ => false

/-- The tail of `try_from_file` after the dictionary load (the last-block
lookup, the three fallible signed-to-unsigned conversions, the offset sum,
the seek, and the state assembly). `dictionaries` is the already-loaded
dictionary table. The `u64` addition `offset + meta_data_length +
body_length` is unchecked in the source and therefore wraps modulo `2^64`
(Rust release semantics). -/
def resumeTail {F IF D W : Type}
    (seekResult : Nat → Except ArrowError Unit)
    (metadata : FileMetadata F IF)
    (options : W)
    (dictionaries : D) :
    Except ArrowError (FileWriter F IF D W) × List Event :=
  match metadata.blocks.getLast? with
  | none =>
    (.error (.oos "An Arrow IPC file must have at least 1 message (the schema message)"), [])
  | some last_block =>
    match u64TryFrom last_block.offset with
    | none => (.error (.oos "The block's offset must be a positive number"), [])
    | some offset =>
      match u64TryFrom last_block.meta_data_length with
      | none => (.error (.oos "The block's meta length must be a positive number"), [])
      | some meta_data_length =>
        match u64TryFrom last_block.body_length with
        | none => (.error (.oos "The block's body length must be a positive number"), [])
        | some body_length =>
          let offset : Nat := (offset + meta_data_length + body_length) % U64_MOD
          match seekResult offset with
          | .error e => (.error e, [Event.seek offset])
          | .ok _ =>
            (.ok { writer := offset
                   options := options
                   schema := metadata.schema
                   ipc_fields := metadata.ipc_schema.fields
                   block_offsets := offset
                   dictionary_blocks := metadata.dictionaries.getD []
                   record_blocks := metadata.blocks
                   state := .started
                   dictionary_tracker :=
                     { dictionaries := dictionaries, cannot_replace := true } },
             [Event.seek offset])

/-- Shallow embedding of `FileWriter::try_from_file`. Explicit inputs:
`is_native_little_endian` (the platform constant, injected), the external
dictionary loader `read_dictionaries` (a function of the schema fields, ipc
schema and dictionary block list), `emptyDicts` (`Default::default()` for
the dictionary table), `seekResult` (outcome of the underlying medium for a
seek to a given position), the parsed `metadata` and the write `options`.
Returns the `Result` together with the ordered trace of stream I/O events:
first the endianness check, then the dictionary load (when dictionary
blocks are present), then `resumeTail`. -/
def try_from_file {F IF D W : Type}
    (is_native_little_endian : Bool)
    (read_dictionaries : List F → IpcSchema IF → List Block → Except ArrowError D)
    (emptyDicts : D)
    (seekResult : Nat → Except ArrowError Unit)
    (metadata : FileMetadata F IF)
    (options : W) :
    Except ArrowError (FileWriter F IF D W) × List Event :=
  if metadata.ipc_schema.is_little_endian ≠ is_native_little_endian then
    (.error (.nyi "Appending to a file of a non-native endianess is still not supported"), [])
  else
    match metadata.dictionaries with
    | some blocks =>
      match read_dictionaries metadata.schema.fields metadata.ipc_schema blocks with
      | .error e => (.error e, [Event.dictRead blocks])
      | .ok dictionaries =>
        match resumeTail seekResult metadata options dictionaries with
        | (r, ev) => (r, Event.dictRead blocks :: ev)
    | none => resumeTail seekResult metadata options emptyDicts


variable {F IF D W : Type}

/-- `u64::try_from` fails exactly on negative inputs. -/
theorem u64TryFrom_eq_none_iff {x : Int} : u64TryFrom x = none ↔ x < 0 := by
  unfold u64TryFrom
  split <;> simp_all

/-- `u64::try_from` on a non-negative input yields its value. -/
theorem u64TryFrom_of_nonneg {x : Int} (h : 0 ≤ x) : u64TryFrom x = some x.toNat := by
  simp [u64TryFrom, h]

/-- A record-block list with no last element makes `resumeTail` fail with
the malformed-file error, with no event. -/
theorem resumeTail_empty_last (sk : Nat → Except ArrowError Unit)
    (metadata : FileMetadata F IF) (options : W) (d : D)
    (hlast : metadata.blocks.getLast? = none) :
    resumeTail sk metadata options d =
      (.error (.oos "An Arrow IPC file must have at least 1 message (the schema message)"),
       []) := by
  simp only [resumeTail, hlast]

/-- A negative last-block offset makes `resumeTail` fail with the
malformed-file error, with no event. -/
theorem resumeTail_neg_offset (sk : Nat → Except ArrowError Unit)
    (metadata : FileMetadata F IF) (options : W) (d : D) (lb : Block)
    (hlast : metadata.blocks.getLast? = some lb)
    (hneg : lb.offset < 0) :
    resumeTail sk metadata options d =
      (.error (.oos "The block's offset must be a positive number"), []) := by
  simp only [resumeTail, hlast, u64TryFrom_eq_none_iff.mpr hneg]

/-- A negative last-block metadata length makes `resumeTail` fail with the
malformed-file error, with no event. -/
theorem resumeTail_neg_meta (sk : Nat → Except ArrowError Unit)
    (metadata : FileMetadata F IF) (options : W) (d : D) (lb : Block)
    (hlast : metadata.blocks.getLast? = some lb)
    (h0 : 0 ≤ lb.offset) (hneg : lb.meta_data_length < 0) :
    resumeTail sk metadata options d =
      (.error (.oos "The block's meta length must be a positive number"), []) := by
  simp only [resumeTail, hlast, u64TryFrom_of_nonneg h0, u64TryFrom_eq_none_iff.mpr hneg]

/-- A negative last-block body length makes `resumeTail` fail with the
malformed-file error, with no event. -/
theorem resumeTail_neg_body (sk : Nat → Except ArrowError Unit)
    (metadata : FileMetadata F IF) (options : W) (d : D) (lb : Block)
    (hlast : metadata.blocks.getLast? = some lb)
    (h0 : 0 ≤ lb.offset) (h1 : 0 ≤ lb.meta_data_length) (hneg : lb.body_length < 0) :
    resumeTail sk metadata options d =
      (.error (.oos "The block's body length must be a positive number"), []) := by
  simp only [resumeTail, hlast, u64TryFrom_of_nonneg h0, u64TryFrom_of_nonneg h1,
    u64TryFrom_eq_none_iff.mpr hneg]

/-- With a last block of non-negative fields and a successful seek,
`resumeTail` succeeds, seeking to the wrapped field sum and assembling the
writer state. -/
theorem resumeTail_success (sk : Nat → Except ArrowError Unit)
    (metadata : FileMetadata F IF) (options : W) (d : D) (lb : Block)
    (hlast : metadata.blocks.getLast? = some lb)
    (h0 : 0 ≤ lb.offset) (h1 : 0 ≤ lb.meta_data_length) (h2 : 0 ≤ lb.body_length)
    (hseek : sk ((lb.offset.toNat + lb.meta_data_length.toNat + lb.body_length.toNat)
        % U64_MOD) = .ok ()) :
    resumeTail sk metadata options d =
      (.ok { writer := (lb.offset.toNat + lb.meta_data_length.toNat + lb.body_length.toNat)
               % U64_MOD
             options := options
             schema := metadata.schema
             ipc_fields := metadata.ipc_schema.fields
             block_offsets := (lb.offset.toNat + lb.meta_data_length.toNat
               + lb.body_length.toNat) % U64_MOD
             dictionary_blocks := metadata.dictionaries.getD []
             record_blocks := metadata.blocks
             state := .started
             dictionary_tracker := { dictionaries := d, cannot_replace := true } },
       [Event.seek ((lb.offset.toNat + lb.meta_data_length.toNat + lb.body_length.toNat)
         % U64_MOD)]) := by
  simp only [resumeTail, hlast, u64TryFrom_of_nonneg h0, u64TryFrom_of_nonneg h1,
    u64TryFrom_of_nonneg h2, hseek]

/-- `u64::try_from` inverted: a successful conversion means the input was
non-negative and the output is its value. -/
theorem u64TryFrom_eq_some {x : Int} {n : Nat} (h : u64TryFrom x = some n) :
    0 ≤ x ∧ n = x.toNat := by
  unfold u64TryFrom at h
  split at h <;> simp_all

/-- With a last block of non-negative fields and a failing seek,
`resumeTail` propagates the seek error after attempting the seek. -/
theorem resumeTail_seek_err (sk : Nat → Except ArrowError Unit)
    (metadata : FileMetadata F IF) (options : W) (d : D) (lb : Block) (e : ArrowError)
    (hlast : metadata.blocks.getLast? = some lb)
    (h0 : 0 ≤ lb.offset) (h1 : 0 ≤ lb.meta_data_length) (h2 : 0 ≤ lb.body_length)
    (hseek : sk ((lb.offset.toNat + lb.meta_data_length.toNat + lb.body_length.toNat)
        % U64_MOD) = .error e) :
    resumeTail sk metadata options d =
      (.error e,
       [Event.seek ((lb.offset.toNat + lb.meta_data_length.toNat + lb.body_length.toNat)
         % U64_MOD)]) := by
  simp only [resumeTail, hlast, u64TryFrom_of_nonneg h0, u64TryFrom_of_nonneg h1,
    u64TryFrom_of_nonneg h2, hseek]

/-- Inversion: whenever `resumeTail` succeeds, the assembled writer state
carries the metadata unchanged, the `started` lifecycle state, the given
dictionary table, and the no-replace policy, and the one event is the seek
to the computed offset. -/
theorem resumeTail_ok_inv (sk : Nat → Except ArrowError Unit)
    (metadata : FileMetadata F IF) (options : W) (d : D)
    (w : FileWriter F IF D W) (ev : List Event)
    (h : resumeTail sk metadata options d = (.ok w, ev)) :
    w.options = options ∧ w.schema = metadata.schema ∧
    w.ipc_fields = metadata.ipc_schema.fields ∧
    w.dictionary_blocks = metadata.dictionaries.getD [] ∧
    w.record_blocks = metadata.blocks ∧
    w.state = State.started ∧
    w.dictionary_tracker = { dictionaries := d, cannot_replace := true } ∧
    w.writer = w.block_offsets ∧
    ev = [Event.seek w.block_offsets] := by
  rcases hlast : metadata.blocks.getLast? with _ | lb
  · rw [resumeTail_empty_last sk metadata options d hlast] at h
    simp at h
  · by_cases h0 : 0 ≤ lb.offset
    · by_cases h1 : 0 ≤ lb.meta_data_length
      · by_cases h2 : 0 ≤ lb.body_length
        · rcases hsk : sk ((lb.offset.toNat + lb.meta_data_length.toNat
            + lb.body_length.toNat) % U64_MOD) with e | u
          · rw [resumeTail_seek_err sk metadata options d lb e hlast h0 h1 h2 hsk] at h
            simp at h
          · cases u
            rw [resumeTail_success sk metadata options d lb hlast h0 h1 h2 hsk] at h
            rw [Prod.mk.injEq, Except.ok.injEq] at h
            obtain ⟨hw, hev⟩ := h
            subst hw
            subst hev
            simp
        · rw [resumeTail_neg_body sk metadata options d lb hlast h0 h1 (by omega)] at h
          simp at h
      · rw [resumeTail_neg_meta sk metadata options d lb hlast h0 (by omega)] at h
        simp at h
    · rw [resumeTail_neg_offset sk metadata options d lb hlast (by omega)] at h
      simp at h

/-- `resumeTail` does not depend on the seek behaviour as long as every
seek succeeds. -/
theorem resumeTail_seek_agnostic (sk1 sk2 : Nat → Except ArrowError Unit)
    (metadata : FileMetadata F IF) (options : W) (d : D)
    (hsk1 : ∀ n, sk1 n = .ok ()) (hsk2 : ∀ n, sk2 n = .ok ()) :
    resumeTail sk1 metadata options d = resumeTail sk2 metadata options d := by
  have hf : sk1 = sk2 := funext fun n => (hsk1 n).trans (hsk2 n).symm
  rw [hf]

/-- Unfolding `try_from_file` when the endianness check passes and there is
no dictionary block list. -/
theorem try_from_file_none (nLE : Bool)
    (rd : List F → IpcSchema IF → List Block → Except ArrowError D)
    (ed : D) (sk : Nat → Except ArrowError Unit)
    (metadata : FileMetadata F IF) (options : W)
    (hend : metadata.ipc_schema.is_little_endian = nLE)
    (hd : metadata.dictionaries = none) :
    try_from_file nLE rd ed sk metadata options = resumeTail sk metadata options ed := by
  simp only [try_from_file, hend, ne_eq, not_true_eq_false, if_false, hd]

/-- Unfolding `try_from_file` when the endianness check passes, dictionary
blocks are present and the dictionary loader succeeds: the dictionary read
happens first, then `resumeTail` runs on the loaded table. -/
theorem try_from_file_some_ok (nLE : Bool)
    (rd : List F → IpcSchema IF → List Block → Except ArrowError D)
    (ed : D) (sk : Nat → Except ArrowError Unit)
    (metadata : FileMetadata F IF) (options : W)
    (bs : List Block) (d : D)
    (hend : metadata.ipc_schema.is_little_endian = nLE)
    (hd : metadata.dictionaries = some bs)
    (hrd : rd metadata.schema.fields metadata.ipc_schema bs = .ok d) :
    try_from_file nLE rd ed sk metadata options =
      ((resumeTail sk metadata options d).1,
       Event.dictRead bs :: (resumeTail sk metadata options d).2) := by
  simp only [try_from_file, hend, ne_eq, not_true_eq_false, if_false, hd, hrd]

/-- Inversion: a successful `try_from_file` reached `resumeTail` with
either the default dictionary table (no dictionary blocks) or the table the
loader returned for the metadata dictionary blocks. -/
theorem try_from_file_ok_inv (nLE : Bool)
    (rd : List F → IpcSchema IF → List Block → Except ArrowError D)
    (ed : D) (sk : Nat → Except ArrowError Unit)
    (metadata : FileMetadata F IF) (options : W)
    (w : FileWriter F IF D W) (ev : List Event)
    (h : try_from_file nLE rd ed sk metadata options = (.ok w, ev)) :
    (metadata.dictionaries = none ∧
      ∃ ev2, resumeTail sk metadata options ed = (.ok w, ev2)) ∨
    (∃ bs d ev2, metadata.dictionaries = some bs ∧
      rd metadata.schema.fields metadata.ipc_schema bs = .ok d ∧
      resumeTail sk metadata options d = (.ok w, ev2)) := by
  unfold try_from_file at h
  split at h
  · simp_all
  · split at h
    · rename_i bs heq
      split at h
      · simp_all
      · rename_i d hrd
        split at h
        rename_i r ev2 hres
        rw [Prod.mk.injEq] at h
        obtain ⟨hr, hev⟩ := h
        subst hr
        right
        exact ⟨bs, d, ev2, heq, hrd, hres⟩
    · rename_i heq
      left
      exact ⟨heq, ev, h⟩

/-- Unfolding `try_from_file` when the endianness flag differs from the
native byte order: the not-yet-implemented error, with an empty event
trace. -/
theorem try_from_file_endian_mismatch (nLE : Bool)
    (rd : List F → IpcSchema IF → List Block → Except ArrowError D)
    (ed : D) (sk : Nat → Except ArrowError Unit)
    (metadata : FileMetadata F IF) (options : W)
    (hend : metadata.ipc_schema.is_little_endian ≠ nLE) :
    try_from_file nLE rd ed sk metadata options =
      (.error (.nyi "Appending to a file of a non-native endianess is still not supported"),
       []) := by
  unfold try_from_file
  rw [if_pos hend]

/-- Unfolding `try_from_file` when the endianness check passes, dictionary
blocks are present and the dictionary loader fails: the error propagates
after the dictionary read. -/
theorem try_from_file_some_err (nLE : Bool)
    (rd : List F → IpcSchema IF → List Block → Except ArrowError D)
    (ed : D) (sk : Nat → Except ArrowError Unit)
    (metadata : FileMetadata F IF) (options : W)
    (bs : List Block) (e : ArrowError)
    (hend : metadata.ipc_schema.is_little_endian = nLE)
    (hd : metadata.dictionaries = some bs)
    (hrd : rd metadata.schema.fields metadata.ipc_schema bs = .error e) :
    try_from_file nLE rd ed sk metadata options = (.error e, [Event.dictRead bs]) := by
  simp only [try_from_file, hend, ne_eq, not_true_eq_false, if_false, hd, hrd]

/-- Composition: when the endianness check passes, the dictionary load
succeeds (or there are no dictionary blocks), the last block has
non-negative fields and every seek succeeds, `try_from_file` succeeds and
the writer ends at the wrapped field sum, the final event being the seek
there. -/
theorem try_from_file_success (nLE : Bool)
    (rd : List F → IpcSchema IF → List Block → Except ArrowError D)
    (ed : D) (sk : Nat → Except ArrowError Unit)
    (metadata : FileMetadata F IF) (options : W) (lb : Block)
    (hlast : metadata.blocks.getLast? = some lb)
    (h0 : 0 ≤ lb.offset) (h1 : 0 ≤ lb.meta_data_length) (h2 : 0 ≤ lb.body_length)
    (hend : metadata.ipc_schema.is_little_endian = nLE)
    (hdict : ∀ bs, metadata.dictionaries = some bs →
      ∃ d, rd metadata.schema.fields metadata.ipc_schema bs = .ok d)
    (hsk : ∀ n, sk n = .ok ()) :
    ∃ w ev, try_from_file nLE rd ed sk metadata options = (.ok w, ev) ∧
      w.block_offsets = (lb.offset.toNat + lb.meta_data_length.toNat
        + lb.body_length.toNat) % U64_MOD ∧
      w.writer = w.block_offsets ∧
      ev.getLast? = some (Event.seek w.block_offsets) := by
  cases hd : metadata.dictionaries with
  | none =>
    rw [try_from_file_none nLE rd ed sk metadata options hend hd,
      resumeTail_success sk metadata options ed lb hlast h0 h1 h2 (hsk _)]
    exact ⟨_, _, rfl, rfl, rfl, by simp⟩
  | some bs =>
    obtain ⟨d, hrd⟩ := hdict bs hd
    rw [try_from_file_some_ok nLE rd ed sk metadata options bs d hend hd hrd,
      resumeTail_success sk metadata options d lb hlast h0 h1 h2 (hsk _)]
    exact ⟨_, _, rfl, rfl, rfl, by simp⟩

/-- Outcome of the additional not-negative check derived from `resumeTail`:
given a last block and all seeks succeeding, the result is the
malformed-file error exactly when a block field is negative. -/
theorem resumeTail_isOos_iff (sk : Nat → Except ArrowError Unit)
    (metadata : FileMetadata F IF) (options : W) (d : D) (lb : Block)
    (hlast : metadata.blocks.getLast? = some lb)
    (hsk : ∀ n, sk n = .ok ()) :
    isOos (resumeTail sk metadata options d (W := W)).1 = true ↔
      (lb.offset < 0 ∨ lb.meta_data_length < 0 ∨ lb.body_length < 0) := by
  by_cases h0 : lb.offset < 0
  · rw [resumeTail_neg_offset sk metadata options d lb hlast h0]
    simp [isOos, h0]
  · by_cases h1 : lb.meta_data_length < 0
    · rw [resumeTail_neg_meta sk metadata options d lb hlast (by omega) h1]
      simp [isOos, h1]
    · by_cases h2 : lb.body_length < 0
      · rw [resumeTail_neg_body sk metadata options d lb hlast (by omega) (by omega) h2]
        simp [isOos, h2]
      · rw [resumeTail_success sk metadata options d lb hlast (by omega) (by omega)
          (by omega) (hsk _)]
        simp [isOos, h0, h1, h2]

/-- The resume offset of a run, when it succeeded. -/
def resultOffset {F IF D W : Type}
    (r : Except ArrowError (FileWriter F IF D W) × List Event) : Option Nat :=
  match r with
  | (.ok w, _) => some w.block_offsets
  | (.error _, _) => none

/-- The dictionary table of a run, when it succeeded. -/
def resultDicts {F IF D W : Type}
    (r : Except ArrowError (FileWriter F IF D W) × List Event) : Option D :=
  match r with
  | (.ok w, _) => some w.dictionary_tracker.dictionaries
  | (.error _, _) => none

/-- A dictionary loader that always succeeds with a two-entry table. -/
def okLoader : List Nat → IpcSchema Nat → List Block → Except ArrowError (List (Nat × Nat)) :=
  fun _ _ _ => .ok [(1, 10), (2, 20)]

/-- A second, independent dictionary loader returning the same table. -/
def okLoader2 : List Nat → IpcSchema Nat → List Block → Except ArrowError (List (Nat × Nat)) :=
  fun _ _ _ => .ok [(1, 10), (2, 20)]

/-- A stream whose seeks always succeed. -/
def okSeek : Nat → Except ArrowError Unit := fun _ => .ok ()

/-- A second, fresh stream whose seeks always succeed. -/
def okSeek2 : Nat → Except ArrowError Unit := fun _ => .ok ()

/-- Metadata whose last record block is {offset: 100, meta_data_length: 20,
body_length: 380}, with one dictionary block. -/
def mdLast500 : FileMetadata Nat Nat :=
  { schema := { fields := [3] }
    ipc_schema := { fields := [7], is_little_endian := true }
    blocks := [{ offset := 0, meta_data_length := 8, body_length := 92 },
               { offset := 100, meta_data_length := 20, body_length := 380 }]
    dictionaries := some [{ offset := 8, meta_data_length := 4, body_length := 16 }] }

/-- Metadata whose last record block fields sum to exactly 2^64 (all
representable: offset and body_length are the i64 maximum, the metadata
length 2 fits an i32). -/
def mdOverflowSum : FileMetadata Nat Nat :=
  { schema := { fields := [] }
    ipc_schema := { fields := [], is_little_endian := true }
    blocks := [{ offset := 9223372036854775807, meta_data_length := 2,
                 body_length := 9223372036854775807 }]
    dictionaries := none }

/-- Metadata whose last record block fields sum to 2^64 + 1. -/
def mdOverflowSum1 : FileMetadata Nat Nat :=
  { schema := { fields := [] }
    ipc_schema := { fields := [], is_little_endian := true }
    blocks := [{ offset := 9223372036854775807, meta_data_length := 3,
                 body_length := 9223372036854775807 }]
    dictionaries := none }

/-- Metadata with a dictionary block and a last record block of offset -5. -/
def mdNegOffsetDict : FileMetadata Nat Nat :=
  { schema := { fields := [3] }
    ipc_schema := { fields := [7], is_little_endian := true }
    blocks := [{ offset := -5, meta_data_length := 0, body_length := 0 }]
    dictionaries := some [{ offset := 8, meta_data_length := 4, body_length := 16 }] }

/-- Metadata flagged big-endian (opposite of the little-endian platform of
the witnesses). -/
def mdBigEndian : FileMetadata Nat Nat :=
  { schema := { fields := [3] }
    ipc_schema := { fields := [7], is_little_endian := false }
    blocks := [{ offset := 0, meta_data_length := 8, body_length := 92 }]
    dictionaries := some [{ offset := 8, meta_data_length := 4, body_length := 16 }] }

/-- Metadata with an empty record-block list. -/
def mdNoBlocks : FileMetadata Nat Nat :=
  { schema := { fields := [3] }
    ipc_schema := { fields := [7], is_little_endian := true }
    blocks := []
    dictionaries := some [{ offset := 8, meta_data_length := 4, body_length := 16 }] }

/-- Metadata whose last record block has a negative metadata length. -/
def mdNegMeta : FileMetadata Nat Nat :=
  { schema := { fields := [3] }
    ipc_schema := { fields := [7], is_little_endian := true }
    blocks := [{ offset := 5, meta_data_length := -1, body_length := 7 }]
    dictionaries := some [{ offset := 8, meta_data_length := 4, body_length := 16 }] }

/-- Metadata whose last (only) record block is all zero. -/
def mdZeroBlock : FileMetadata Nat Nat :=
  { schema := { fields := [3] }
    ipc_schema := { fields := [7], is_little_endian := true }
    blocks := [{ offset := 0, meta_data_length := 0, body_length := 0 }]
    dictionaries := some [{ offset := 8, meta_data_length := 4, body_length := 16 }] }

/-- The writer state resuming `mdLast500` produces. -/
def w500 : FileWriter Nat Nat (List (Nat × Nat)) Unit :=
  { writer := 500
    options := ()
    schema := { fields := [3] }
    ipc_fields := [7]
    block_offsets := 500
    dictionary_blocks := [{ offset := 8, meta_data_length := 4, body_length := 16 }]
    record_blocks := [{ offset := 0, meta_data_length := 8, body_length := 92 },
                      { offset := 100, meta_data_length := 20, body_length := 380 }]
    state := .started
    dictionary_tracker := { dictionaries := [(1, 10), (2, 20)], cannot_replace := true } }

/-- C1 (amended): for every metadata whose last record block has
non-negative offset, meta_data_length and body_length whose sum is below
2^64, resume succeeds (given the endianness check passes and dictionary
loading and seeking succeed) with resume_offset equal to
offset + meta_data_length + body_length, the final stream event being the
seek positioning the stream at exactly that byte. -/
theorem c1_resume_offset_correct (nLE : Bool)
    (rd : List F → IpcSchema IF → List Block → Except ArrowError D)
    (ed : D) (sk : Nat → Except ArrowError Unit)
    (metadata : FileMetadata F IF) (options : W) (lb : Block)
    (hlast : metadata.blocks.getLast? = some lb)
    (h0 : 0 ≤ lb.offset) (h1 : 0 ≤ lb.meta_data_length) (h2 : 0 ≤ lb.body_length)
    (hsum : lb.offset.toNat + lb.meta_data_length.toNat + lb.body_length.toNat < U64_MOD)
    (hend : metadata.ipc_schema.is_little_endian = nLE)
    (hdict : ∀ bs, metadata.dictionaries = some bs →
      ∃ d, rd metadata.schema.fields metadata.ipc_schema bs = .ok d)
    (hsk : ∀ n, sk n = .ok ()) :
    ∃ w ev, try_from_file nLE rd ed sk metadata options = (.ok w, ev) ∧
      w.block_offsets = lb.offset.toNat + lb.meta_data_length.toNat + lb.body_length.toNat ∧
      w.writer = w.block_offsets ∧
      ev.getLast? = some (Event.seek w.block_offsets) := by
  obtain ⟨w, ev, hw, hb, hwr, hev⟩ :=
    try_from_file_success nLE rd ed sk metadata options lb hlast h0 h1 h2 hend hdict hsk
  rw [Nat.mod_eq_of_lt hsum] at hb
  exact ⟨w, ev, hw, hb, hwr, hev⟩

/-- C1 witness: the spec instance — last block {offset: 100,
meta_data_length: 20, body_length: 380} resumes at 500, the final stream
event being the seek to 500. -/
theorem c1_resume_offset_correct_witness :
    ∃ w ev, try_from_file true okLoader ([] : List (Nat × Nat)) okSeek mdLast500 ()
        = (.ok w, ev) ∧
      w.block_offsets = 500 ∧
      w.writer = w.block_offsets ∧
      ev.getLast? = some (Event.seek w.block_offsets) := by
  have h := c1_resume_offset_correct true okLoader ([] : List (Nat × Nat)) okSeek mdLast500 ()
    { offset := 100, meta_data_length := 20, body_length := 380 }
    (by decide) (by decide) (by decide) (by decide) (by decide) rfl
    (fun _ _ => ⟨[(1, 10), (2, 20)], rfl⟩) (fun _ => rfl)
  simpa using h

/-- C1 counterexample: for the representable last block
{offset: i64 max, meta_data_length: 2, body_length: i64 max} (all fields
non-negative) resume succeeds but the resume offset is the wrapped value 0,
not offset + meta_data_length + body_length = 2^64: the claim as stated is
false. -/
theorem c1_resume_offset_overflow_cex :
    resultOffset (try_from_file true okLoader ([] : List (Nat × Nat)) okSeek mdOverflowSum ())
      = some 0 ∧
    resultOffset (try_from_file true okLoader ([] : List (Nat × Nat)) okSeek mdOverflowSum ())
      ≠ some (9223372036854775807 + 2 + 9223372036854775807) := by
  decide

/-- C2: at the failing input (last block {offset: i64 max,
meta_data_length: 3, body_length: i64 max}) the unchecked u64 addition
wraps: resume returns Ok with resume offset 1, and no malformed-file error
is surfaced — contradicting the claim (and the function documentation,
which promises an error on files that are not valid Arrow IPC files). -/
theorem c2_overflow_wraps_silently :
    resultOffset (try_from_file true okLoader ([] : List (Nat × Nat)) okSeek mdOverflowSum1 ())
      = some 1 ∧
    isOos (try_from_file true okLoader ([] : List (Nat × Nat)) okSeek mdOverflowSum1 ()).1
      = false := by
  decide

/-- C3 counterexample: with metadata holding a dictionary block and a last
record block of offset -5, resume does fail with the malformed-file error,
but a dictionary read IS attempted on the stream first — refuting the
claim that the failure comes before any dictionary read. -/
theorem c3_dict_read_attempted_cex :
    isOos (try_from_file true okLoader ([] : List (Nat × Nat)) okSeek mdNegOffsetDict ()).1
      = true ∧
    (try_from_file true okLoader ([] : List (Nat × Nat)) okSeek
      mdNegOffsetDict ()).2.any Event.isDictRead = true := by
  decide

/-- C3 (amended): for every metadata whose last record block has a negative
offset, resume (endianness passing, dictionary loading succeeding) fails
with the MalformedFile error before any seek is attempted; the dictionary
read, when dictionary blocks are present, occurs before the validation. -/
theorem c3_negative_offset_malformed (nLE : Bool)
    (rd : List F → IpcSchema IF → List Block → Except ArrowError D)
    (ed : D) (sk : Nat → Except ArrowError Unit)
    (metadata : FileMetadata F IF) (options : W) (lb : Block)
    (hlast : metadata.blocks.getLast? = some lb)
    (hneg : lb.offset < 0)
    (hend : metadata.ipc_schema.is_little_endian = nLE)
    (hdict : ∀ bs, metadata.dictionaries = some bs →
      ∃ d, rd metadata.schema.fields metadata.ipc_schema bs = .ok d) :
    (try_from_file nLE rd ed sk metadata options).1 =
      .error (.oos "The block's offset must be a positive number") ∧
    (try_from_file nLE rd ed sk metadata options).2.any Event.isSeek = false := by
  cases hd : metadata.dictionaries with
  | none =>
    rw [try_from_file_none nLE rd ed sk metadata options hend hd,
      resumeTail_neg_offset sk metadata options ed lb hlast hneg]
    exact ⟨rfl, rfl⟩
  | some bs =>
    obtain ⟨d, hrd⟩ := hdict bs hd
    rw [try_from_file_some_ok nLE rd ed sk metadata options bs d hend hd hrd,
      resumeTail_neg_offset sk metadata options d lb hlast hneg]
    exact ⟨rfl, rfl⟩

/-- C3 witness: the amended claim at the concrete negative-offset input. -/
theorem c3_negative_offset_malformed_witness :
    (try_from_file true okLoader ([] : List (Nat × Nat)) okSeek mdNegOffsetDict ()).1 =
      .error (.oos "The block's offset must be a positive number") ∧
    (try_from_file true okLoader ([] : List (Nat × Nat)) okSeek
      mdNegOffsetDict ()).2.any Event.isSeek = false :=
  c3_negative_offset_malformed true okLoader ([] : List (Nat × Nat)) okSeek mdNegOffsetDict ()
    { offset := -5, meta_data_length := 0, body_length := 0 } (by decide) (by decide) rfl
    (fun _ _ => ⟨[(1, 10), (2, 20)], rfl⟩)

/-- C4: for every metadata whose byte-order flag differs from the platform
native byte order, resume fails immediately with the Unsupported
(not-yet-implemented) error and the I/O trace is empty: no seek and no
dictionary read are performed on the stream. -/
theorem c4_byte_order_rejection (nLE : Bool)
    (rd : List F → IpcSchema IF → List Block → Except ArrowError D)
    (ed : D) (sk : Nat → Except ArrowError Unit)
    (metadata : FileMetadata F IF) (options : W)
    (hend : metadata.ipc_schema.is_little_endian ≠ nLE) :
    (try_from_file nLE rd ed sk metadata options).1 =
      .error (.nyi "Appending to a file of a non-native endianess is still not supported") ∧
    (try_from_file nLE rd ed sk metadata options).2 = [] := by
  rw [try_from_file_endian_mismatch nLE rd ed sk metadata options hend]
  exact ⟨rfl, rfl⟩

/-- C4 witness: big-endian metadata on a little-endian platform. -/
theorem c4_byte_order_rejection_witness :
    (try_from_file true okLoader ([] : List (Nat × Nat)) okSeek mdBigEndian ()).1 =
      .error (.nyi "Appending to a file of a non-native endianess is still not supported") ∧
    (try_from_file true okLoader ([] : List (Nat × Nat)) okSeek mdBigEndian ()).2 = [] :=
  c4_byte_order_rejection true okLoader ([] : List (Nat × Nat)) okSeek mdBigEndian ()
    (by decide)

/-- C5: for every metadata whose record-block list is empty, resume
(endianness passing, dictionary loading succeeding) fails with the
MalformedFile error and performs no seek on the stream. -/
theorem c5_empty_blocks_rejection (nLE : Bool)
    (rd : List F → IpcSchema IF → List Block → Except ArrowError D)
    (ed : D) (sk : Nat → Except ArrowError Unit)
    (metadata : FileMetadata F IF) (options : W)
    (hblocks : metadata.blocks = [])
    (hend : metadata.ipc_schema.is_little_endian = nLE)
    (hdict : ∀ bs, metadata.dictionaries = some bs →
      ∃ d, rd metadata.schema.fields metadata.ipc_schema bs = .ok d) :
    (try_from_file nLE rd ed sk metadata options).1 =
      .error (.oos "An Arrow IPC file must have at least 1 message (the schema message)") ∧
    (try_from_file nLE rd ed sk metadata options).2.any Event.isSeek = false := by
  have hlast : metadata.blocks.getLast? = none := by rw [hblocks]; rfl
  cases hd : metadata.dictionaries with
  | none =>
    rw [try_from_file_none nLE rd ed sk metadata options hend hd,
      resumeTail_empty_last sk metadata options ed hlast]
    exact ⟨rfl, rfl⟩
  | some bs =>
    obtain ⟨d, hrd⟩ := hdict bs hd
    rw [try_from_file_some_ok nLE rd ed sk metadata options bs d hend hd hrd,
      resumeTail_empty_last sk metadata options d hlast]
    exact ⟨rfl, rfl⟩

/-- C5 witness: empty record-block metadata is rejected with no seek. -/
theorem c5_empty_blocks_rejection_witness :
    (try_from_file true okLoader ([] : List (Nat × Nat)) okSeek mdNoBlocks ()).1 =
      .error (.oos "An Arrow IPC file must have at least 1 message (the schema message)") ∧
    (try_from_file true okLoader ([] : List (Nat × Nat)) okSeek mdNoBlocks ()).2.any
      Event.isSeek = false :=
  c5_empty_blocks_rejection true okLoader ([] : List (Nat × Nat)) okSeek mdNoBlocks ()
    rfl rfl (fun _ _ => ⟨[(1, 10), (2, 20)], rfl⟩)

/-- C6: for every metadata with a non-empty record-block list (endianness
passing, dictionary loading and seeking succeeding), resume fails with the
MalformedFile error if and only if at least one of the last block fields
offset, meta_data_length, body_length is negative: negative values are
always rejected and never silently cast. -/
theorem c6_malformed_iff_negative_field (nLE : Bool)
    (rd : List F → IpcSchema IF → List Block → Except ArrowError D)
    (ed : D) (sk : Nat → Except ArrowError Unit)
    (metadata : FileMetadata F IF) (options : W) (lb : Block)
    (hlast : metadata.blocks.getLast? = some lb)
    (hend : metadata.ipc_schema.is_little_endian = nLE)
    (hdict : ∀ bs, metadata.dictionaries = some bs →
      ∃ d, rd metadata.schema.fields metadata.ipc_schema bs = .ok d)
    (hsk : ∀ n, sk n = .ok ()) :
    isOos (try_from_file nLE rd ed sk metadata options).1 = true ↔
      (lb.offset < 0 ∨ lb.meta_data_length < 0 ∨ lb.body_length < 0) := by
  cases hd : metadata.dictionaries with
  | none =>
    rw [try_from_file_none nLE rd ed sk metadata options hend hd]
    exact resumeTail_isOos_iff sk metadata options ed lb hlast hsk
  | some bs =>
    obtain ⟨d, hrd⟩ := hdict bs hd
    rw [try_from_file_some_ok nLE rd ed sk metadata options bs d hend hd hrd]
    exact resumeTail_isOos_iff sk metadata options d lb hlast hsk

/-- C6 witness: a last block with negative metadata length is rejected as
malformed, by the equivalence at that input. -/
theorem c6_malformed_iff_negative_field_witness :
    (isOos (try_from_file true okLoader ([] : List (Nat × Nat)) okSeek mdNegMeta ()).1 = true
      ↔ ((5 : Int) < 0 ∨ (-1 : Int) < 0 ∨ (7 : Int) < 0)) :=
  c6_malformed_iff_negative_field true okLoader ([] : List (Nat × Nat)) okSeek mdNegMeta ()
    { offset := 5, meta_data_length := -1, body_length := 7 } (by decide) rfl
    (fun _ _ => ⟨[(1, 10), (2, 20)], rfl⟩) (fun _ => rfl)

/-- C7: every successful resume carries the dictionary table exactly as the
dictionary loader returned it for the metadata dictionary blocks (the
default empty table when the list is absent), with the no-replace policy
set: redefining an already-present dictionary id is rejected
(cannot_replace is true). -/
theorem c7_dictionary_table (nLE : Bool)
    (rd : List F → IpcSchema IF → List Block → Except ArrowError D)
    (ed : D) (sk : Nat → Except ArrowError Unit)
    (metadata : FileMetadata F IF) (options : W)
    (w : FileWriter F IF D W) (ev : List Event)
    (h : try_from_file nLE rd ed sk metadata options = (.ok w, ev)) :
    w.dictionary_tracker.cannot_replace = true ∧
    (metadata.dictionaries = none → w.dictionary_tracker.dictionaries = ed) ∧
    (∀ bs, metadata.dictionaries = some bs →
      rd metadata.schema.fields metadata.ipc_schema bs
        = .ok w.dictionary_tracker.dictionaries) := by
  rcases try_from_file_ok_inv nLE rd ed sk metadata options w ev h with
    ⟨hnone, ev2, hres⟩ | ⟨bs, d, ev2, hd, hrd, hres⟩
  · obtain ⟨-, -, -, -, -, -, htr, -, -⟩ := resumeTail_ok_inv sk metadata options ed w ev2 hres
    refine ⟨by rw [htr], fun _ => by rw [htr], fun bs hbs => ?_⟩
    rw [hnone] at hbs
    exact Option.noConfusion hbs
  · obtain ⟨-, -, -, -, -, -, htr, -, -⟩ := resumeTail_ok_inv sk metadata options d w ev2 hres
    refine ⟨by rw [htr], fun hn => ?_, fun bs2 hbs2 => ?_⟩
    · rw [hd] at hn
      exact Option.noConfusion hn
    · rw [hd] at hbs2
      injection hbs2 with hbseq
      subst hbseq
      rw [htr]
      exact hrd

/-- C7 witness: resuming `mdLast500` yields exactly the loader table with
the no-replace policy. -/
theorem c7_dictionary_table_witness :
    w500.dictionary_tracker.cannot_replace = true ∧
    okLoader mdLast500.schema.fields mdLast500.ipc_schema
      [{ offset := 8, meta_data_length := 4, body_length := 16 }]
      = .ok w500.dictionary_tracker.dictionaries := by
  have h := c7_dictionary_table true okLoader ([] : List (Nat × Nat)) okSeek mdLast500 ()
    w500 [Event.dictRead [{ offset := 8, meta_data_length := 4, body_length := 16 }],
      Event.seek 500] rfl
  exact ⟨h.1, h.2.2 [{ offset := 8, meta_data_length := 4, body_length := 16 }] rfl⟩

/-- C8: every successful resume carries the metadata schema unchanged, the
metadata record-block list, the metadata dictionary-block list (empty when
absent), the ipc fields, and the started lifecycle state — never the
not-yet-started state. -/
theorem c8_writer_state_propagation (nLE : Bool)
    (rd : List F → IpcSchema IF → List Block → Except ArrowError D)
    (ed : D) (sk : Nat → Except ArrowError Unit)
    (metadata : FileMetadata F IF) (options : W)
    (w : FileWriter F IF D W) (ev : List Event)
    (h : try_from_file nLE rd ed sk metadata options = (.ok w, ev)) :
    w.schema = metadata.schema ∧
    w.record_blocks = metadata.blocks ∧
    w.dictionary_blocks = metadata.dictionaries.getD [] ∧
    w.ipc_fields = metadata.ipc_schema.fields ∧
    w.state = State.started ∧
    w.state ≠ State.notStarted := by
  rcases try_from_file_ok_inv nLE rd ed sk metadata options w ev h with
    ⟨hnone, ev2, hres⟩ | ⟨bs, d, ev2, hd, hrd, hres⟩
  · obtain ⟨-, hsch, hipc, hdb, hrb, hst, -, -, -⟩ :=
      resumeTail_ok_inv sk metadata options ed w ev2 hres
    exact ⟨hsch, hrb, hdb, hipc, hst, by rw [hst]; decide⟩
  · obtain ⟨-, hsch, hipc, hdb, hrb, hst, -, -, -⟩ :=
      resumeTail_ok_inv sk metadata options d w ev2 hres
    exact ⟨hsch, hrb, hdb, hipc, hst, by rw [hst]; decide⟩

/-- C8 witness: the state resumed from `mdLast500`. -/
theorem c8_writer_state_propagation_witness :
    w500.schema = mdLast500.schema ∧
    w500.record_blocks = mdLast500.blocks ∧
    w500.dictionary_blocks = mdLast500.dictionaries.getD [] ∧
    w500.ipc_fields = mdLast500.ipc_schema.fields ∧
    w500.state = State.started ∧
    w500.state ≠ State.notStarted :=
  c8_writer_state_propagation true okLoader ([] : List (Nat × Nat)) okSeek mdLast500 ()
    w500 [Event.dictRead [{ offset := 8, meta_data_length := 4, body_length := 16 }],
      Event.seek 500] rfl

/-- C9: resume is deterministic in its inputs — two runs on the same
metadata against fresh stream handles (possibly different loader and seek
functions, with equal dictionary-loader results and all seeks succeeding)
produce identical resume offsets and identical dictionary tables. -/
theorem c9_deterministic_resumption (nLE : Bool)
    (rd1 rd2 : List F → IpcSchema IF → List Block → Except ArrowError D)
    (ed : D) (sk1 sk2 : Nat → Except ArrowError Unit)
    (metadata : FileMetadata F IF) (options : W)
    (hrd : ∀ bs, metadata.dictionaries = some bs →
      rd1 metadata.schema.fields metadata.ipc_schema bs
        = rd2 metadata.schema.fields metadata.ipc_schema bs)
    (hsk1 : ∀ n, sk1 n = .ok ()) (hsk2 : ∀ n, sk2 n = .ok ()) :
    resultOffset (try_from_file nLE rd1 ed sk1 metadata options)
      = resultOffset (try_from_file nLE rd2 ed sk2 metadata options) ∧
    resultDicts (try_from_file nLE rd1 ed sk1 metadata options)
      = resultDicts (try_from_file nLE rd2 ed sk2 metadata options) := by
  have key : try_from_file nLE rd1 ed sk1 metadata options
      = try_from_file nLE rd2 ed sk2 metadata options := by
    by_cases hend : metadata.ipc_schema.is_little_endian = nLE
    · cases hd : metadata.dictionaries with
      | none =>
        rw [try_from_file_none nLE rd1 ed sk1 metadata options hend hd,
          try_from_file_none nLE rd2 ed sk2 metadata options hend hd,
          resumeTail_seek_agnostic sk1 sk2 metadata options ed hsk1 hsk2]
      | some bs =>
        have hagree := hrd bs hd
        cases hrd2 : rd2 metadata.schema.fields metadata.ipc_schema bs with
        | error e =>
          rw [try_from_file_some_err nLE rd1 ed sk1 metadata options bs e hend hd
              (hagree.trans hrd2),
            try_from_file_some_err nLE rd2 ed sk2 metadata options bs e hend hd hrd2]
        | ok d =>
          rw [try_from_file_some_ok nLE rd1 ed sk1 metadata options bs d hend hd
              (hagree.trans hrd2),
            try_from_file_some_ok nLE rd2 ed sk2 metadata options bs d hend hd hrd2,
            resumeTail_seek_agnostic sk1 sk2 metadata options d hsk1 hsk2]
    · rw [try_from_file_endian_mismatch nLE rd1 ed sk1 metadata options hend,
        try_from_file_endian_mismatch nLE rd2 ed sk2 metadata options hend]
  rw [key]
  exact ⟨rfl, rfl⟩

/-- C9 witness: two independent runs on `mdLast500` with fresh loader and
seek functions agree on offset and dictionary table. -/
theorem c9_deterministic_resumption_witness :
    resultOffset (try_from_file true okLoader ([] : List (Nat × Nat)) okSeek mdLast500 ())
      = resultOffset (try_from_file true okLoader2 ([] : List (Nat × Nat)) okSeek2
          mdLast500 ()) ∧
    resultDicts (try_from_file true okLoader ([] : List (Nat × Nat)) okSeek mdLast500 ())
      = resultDicts (try_from_file true okLoader2 ([] : List (Nat × Nat)) okSeek2
          mdLast500 ()) :=
  c9_deterministic_resumption true okLoader okLoader2 ([] : List (Nat × Nat)) okSeek okSeek2
    mdLast500 () (fun _ _ => rfl) (fun _ => rfl) (fun _ => rfl)

/-- C10: zero-valued block fields are accepted: for a last record block
with offset, meta_data_length and body_length all zero (endianness passing,
dictionary loading and seeking succeeding), resume succeeds with resume
offset 0 and the stream seeked to position 0 — only strictly negative
values fail the conversion. -/
theorem c10_zero_fields_accepted (nLE : Bool)
    (rd : List F → IpcSchema IF → List Block → Except ArrowError D)
    (ed : D) (sk : Nat → Except ArrowError Unit)
    (metadata : FileMetadata F IF) (options : W)
    (hlast : metadata.blocks.getLast? =
      some { offset := 0, meta_data_length := 0, body_length := 0 })
    (hend : metadata.ipc_schema.is_little_endian = nLE)
    (hdict : ∀ bs, metadata.dictionaries = some bs →
      ∃ d, rd metadata.schema.fields metadata.ipc_schema bs = .ok d)
    (hsk : ∀ n, sk n = .ok ()) :
    ∃ w ev, try_from_file nLE rd ed sk metadata options = (.ok w, ev) ∧
      w.block_offsets = 0 ∧ w.writer = 0 ∧
      ev.getLast? = some (Event.seek 0) := by
  obtain ⟨w, ev, hw, hb, hwr, hev⟩ :=
    try_from_file_success nLE rd ed sk metadata options _ hlast (by decide) (by decide)
      (by decide) hend hdict hsk
  have hz : (((0 : Int).toNat + (0 : Int).toNat + (0 : Int).toNat) % U64_MOD) = 0 := by
    decide
  rw [hz] at hb
  rw [hb] at hwr hev
  exact ⟨w, ev, hw, hb, hwr, hev⟩

/-- C10 witness: the all-zero block resumes at offset 0. -/
theorem c10_zero_fields_accepted_witness :
    ∃ w ev, try_from_file true okLoader ([] : List (Nat × Nat)) okSeek mdZeroBlock ()
        = (.ok w, ev) ∧
      w.block_offsets = 0 ∧ w.writer = 0 ∧
      ev.getLast? = some (Event.seek 0) :=
  c10_zero_fields_accepted true okLoader ([] : List (Nat × Nat)) okSeek mdZeroBlock ()
    rfl rfl (fun _ _ => ⟨[(1, 10), (2, 20)], rfl⟩) (fun _ => rfl)

end Arrow2
